import Mathlib

/-!
Shallow embedding of the Claude DevStudio installer and uninstaller
(src/install.py, src/uninstall.py).

The filesystem pieces the scripts touch are modelled as association lists:

* a file is a pair (name, content);
* an item directory (`Dir`) is the list of its regular files;
* the skills target directory (`Target`) maps item names to item dirs;
* `Option Target` distinguishes a missing `~/.claude/skills` directory
  (`none`) from an existing one (`some t`).

Fallible filesystem calls (shutil.copy2, shutil.rmtree) are driven by
boolean oracles passed in as functions; a `true` answer means the call
raises.  A Python `main` is a total function from its input (filesystem
snapshot, prompt answers, oracles) to a `MainOutcome`: it either reaches
`sys.exit`/falls off the end (`exits`), raises an `Exception` (`raises`),
or a `KeyboardInterrupt` escapes from `input()` (`interrupt`).  The
`__main__` wrappers are then transcribed as `installTop`/`uninstallTop`.
-/

/-- A regular file: (file name, byte content). -/
abbrev File := String × String

/-- The regular files of one item directory, in iteration order. -/
abbrev Dir := List File

/-- Content of the named file in a directory, if present. -/
def lookupFile (d : Dir) (n : String) : Option String :=
  match d with
  | [] => none
  | f :: fs => if f.1 = n then some f.2 else lookupFile fs n

/-- Effect of `shutil.copy2(src, dest_dir / f.1)`: overwrite the file of
the same name if present, otherwise add it. -/
def setFile (d : Dir) (f : File) : Dir :=
  if d.any (fun g => g.1 = f.1) then
    d.map (fun g => if g.1 = f.1 then f else g)
  else
    d ++ [f]

/-- The skills target directory: item name mapped to its directory. -/
abbrev Target := List (String × Dir)

/-- The item subdirectory of the given name, if it exists in the target. -/
def getDir (t : Target) (n : String) : Option Dir :=
  match t with
  | [] => none
  | e :: es => if e.1 = n then some e.2 else getDir es n

/-- Create or replace the item subdirectory of the given name. -/
def setDirEntry (t : Target) (n : String) (d : Dir) : Target :=
  if t.any (fun e => e.1 = n) then
    t.map (fun e => if e.1 = n then (n, d) else e)
  else
    t ++ [(n, d)]

/-- Effect of `shutil.rmtree(target / n)`: drop the named subdirectory. -/
def removeDir (t : Target) (n : String) : Target :=
  t.filter (fun e => e.1 ≠ n)

/-- One immediate subdirectory of the skills source root
(`skills_source.iterdir()` restricted to `d.is_dir()`). -/
structure SourceDir where
  name : String
  files : List File
deriving Repr, DecidableEq

/-- `(skill_dir / "SKILL.md").exists()` — the primary-file check at
install.py line 62. -/
def hasSkillFile (sd : SourceDir) : Bool :=
  sd.files.any (fun f => f.1 = "SKILL.md")

/-- The copy loop of install.py lines 71-74 for one item: copy each
regular file in order; an oracle answer of `true` makes `shutil.copy2`
raise, returning the partially written directory and the error text. -/
def copyFiles (fails : String → String → Bool) (iname : String) :
    List File → Dir → Except (Dir × String) Dir
  | [], d => .ok d
  | f :: fs, d =>
    if fails iname f.1 then .error (d, "copy2 " ++ f.1)
    else copyFiles fails iname fs (setFile d f)

/-- The install loop of install.py lines 61-77, transcribed.
Returns on success the final target, the `installed_count`, and the
names skipped for a missing SKILL.md; on an unhandled copy error it
returns the target as left on disk and the error text (the exception
propagates out of `main`). -/
def installLoop (fails : String → String → Bool) :
    List SourceDir → Target → Except (Target × String) (Target × Nat × List String)
  | [], t => .ok (t, 0, [])
  | sd :: rest, t =>
    if hasSkillFile sd then
      let d0 := (getDir t sd.name).getD []
      let t1 := setDirEntry t sd.name d0
      match copyFiles fails sd.name sd.files d0 with
      | .error (dpart, msg) => .error (setDirEntry t1 sd.name dpart, msg)
      | .ok dfull =>
        match installLoop fails rest (setDirEntry t1 sd.name dfull) with
        | .error e => .error e
        | .ok (t2, n, sk) => .ok (t2, n + 1, sk)
    else
      match installLoop fails rest t with
      | .error e => .error e
      | .ok (t2, n, sk) => .ok (t2, n, sd.name :: sk)

/-- How a Python `main` run ends: `sys.exit(code)` or a normal return
(`exits`), an unhandled `Exception` (`raises`), or a `KeyboardInterrupt`
escaping from `input()` (`interrupt`).  The payload is the filesystem
state at that moment. -/
inductive MainOutcome (σ : Type) where
  | exits (code : Nat) (s : σ)
  | raises (msg : String) (s : σ)
  | interrupt (s : σ)
deriving Repr, DecidableEq

/-- What the shell observes of the whole process: an exit code, or a raw
uncaught KeyboardInterrupt traceback. -/
inductive TopOutcome where
  | exit (code : Nat)
  | uncaughtInterrupt
deriving Repr, DecidableEq

/-- Input of one run of install.py `main`. -/
structure InstallInput where
  /-- `skills_source.exists()` -/
  sourceExists : Bool
  /-- the immediate subdirectories of `skills_source`, in iteration order -/
  sourceDirs : List SourceDir
  /-- state of `skills_dest`: `none` if the directory does not exist -/
  target : Option Target
  /-- the answer typed at the overwrite prompt -/
  answer : String
  /-- whether Ctrl-C arrives while `input()` is blocked at the prompt -/
  interruptAtPrompt : Bool

/-- Observable result state of an install run: the skills target, the
count printed in the success summary (`none` if that line was never
reached), and the names reported as skipped. -/
structure InstallState where
  target : Option Target
  installedCount : Option Nat
  skipped : List String
deriving Repr, DecidableEq

/-- `str.lower()` as applied to the one-line prompt answers: ASCII
lower-casing of each character. -/
def lower (s : String) : String :=
  String.mk (s.data.map fun c =>
    if 'A' ≤ c && c ≤ 'Z' then Char.ofNat (c.toNat + 32) else c)

/-- The `existing_skills` scan of install.py lines 40-44: source items
whose target subdirectory already exists (after the mkdir of line 36). -/
def existingSkills (inp : InstallInput) : List SourceDir :=
  inp.sourceDirs.filter (fun sd => (getDir (inp.target.getD []) sd.name).isSome)

/-- install.py `main` (lines 14-84), transcribed.  The copy-failure
oracle is passed separately. -/
def installMain (inp : InstallInput) (fails : String → String → Bool) :
    MainOutcome InstallState :=
  if !inp.sourceExists then
    .exits 1 ⟨inp.target, none, []⟩
  else if inp.sourceDirs.isEmpty then
    .exits 1 ⟨inp.target, none, []⟩
  else
    -- skills_dest.mkdir(parents=True, exist_ok=True)
    let t0 := inp.target.getD []
    if !(existingSkills inp).isEmpty && inp.interruptAtPrompt then
      .interrupt ⟨some t0, none, []⟩
    else if !(existingSkills inp).isEmpty && !(lower inp.answer == "y") then
      .exits 0 ⟨some t0, none, []⟩
    else
      match installLoop fails inp.sourceDirs t0 with
      | .error (t, msg) => .raises msg ⟨some t, none, []⟩
      | .ok (t, n, sk) => .exits 0 ⟨some t, some n, sk⟩

/-- install.py `__main__` block (lines 86-91): `except Exception` turns an
unhandled exception into exit 1; `sys.exit` codes pass through
(`SystemExit` is not an `Exception`); `KeyboardInterrupt` is not an
`Exception` either and escapes uncaught. -/
def installTop (m : MainOutcome InstallState) : TopOutcome :=
  match m with
  | .exits c _ => .exit c
  | .raises _ _ => .exit 1
  | .interrupt _ => .uncaughtInterrupt

/-- The hardcoded skill-name list of uninstall.py lines 19-50. -/
def skills : List String :=
  ["cleanproject", "commit", "contributing", "create-todos", "docs",
   "explain-like-senior", "find-todos", "fix-imports", "fix-todos",
   "format", "implement", "make-it-pretty", "predict-issues", "refactor",
   "remove-comments", "review", "scaffold", "security-scan",
   "session-current", "session-end", "session-help", "session-list",
   "session-resume", "session-start", "session-update", "sessions-init",
   "test", "todos-to-issues", "understand", "undo"]

/-- uninstall.py lines 53-54: legacy command file names. -/
def legacy_commands : List String :=
  skills.map (fun s => s ++ ".md") ++ ["cleanup-types.md", "context-cache.md"]

/-- Classification of what the removal loop does for one name. -/
inductive RemoveResult where
  | Removed
  | Absent
  | Failed (reason : String)
deriving Repr, DecidableEq

/-- One iteration of the skill-removal loop (uninstall.py lines 92-100):
if the named subdirectory exists, try `shutil.rmtree`; a raising rmtree
is caught in place.  An absent name is passed over silently (`Absent`). -/
def removeOne (rm : String → Bool) (t : Target) (n : String) :
    Target × RemoveResult :=
  match getDir t n with
  | none => (t, .Absent)
  | some _ =>
    if rm n then (t, .Failed ("rmtree " ++ n))
    else (removeDir t n, .Removed)

/-- The skill-removal batch loop: processes every name, accumulating the
final target, the `removed_skills` count, and the per-name trace. -/
def removeSkillsLoop (rm : String → Bool) :
    List String → Target → Target × Nat × List (String × RemoveResult)
  | [], t => (t, 0, [])
  | n :: ns, t =>
    let r := removeOne rm t n
    let rest := removeSkillsLoop rm ns r.1
    (rest.1, (if r.2 = .Removed then 1 else 0) + rest.2.1, (n, r.2) :: rest.2.2)

/-- The legacy-command removal loop (uninstall.py lines 104-113) over a
flat list of file names present in `commands_dir`. -/
def removeCmdsLoop (rm : String → Bool) :
    List String → List String → List String × Nat
  | [], fs => (fs, 0)
  | c :: cs, fs =>
    if fs.contains c then
      if rm c then removeCmdsLoop rm cs fs
      else
        let rest := removeCmdsLoop rm cs (fs.filter (fun x => x ≠ c))
        (rest.1, rest.2 + 1)
    else removeCmdsLoop rm cs fs

/-- Input of one run of uninstall.py `main`. -/
structure UninstallInput where
  /-- state of `~/.claude/skills` (`none` if missing) -/
  skillsDir : Option Target
  /-- file names present in `~/.claude/commands` (`none` if missing) -/
  commandsDir : Option (List String)
  /-- answer to the main removal prompt -/
  answer : String
  /-- answer to the cache/backups prompt -/
  answer2 : String
  /-- Ctrl-C while blocked at the first prompt -/
  interruptAtPrompt : Bool
  /-- Ctrl-C while blocked at the second prompt -/
  interruptAtPrompt2 : Bool
  cacheExists : Bool
  backupsExists : Bool
  /-- whether `shutil.rmtree(cache_dir)` (line 123, unprotected) raises -/
  cacheRmFails : Bool
  /-- whether `shutil.rmtree(backup_dir)` (line 126, unprotected) raises -/
  backupRmFails : Bool

/-- Observable result state of an uninstall run.  The two counts are the
ones printed in the final summary (`none` if that line was never
reached); the trace records the per-skill removal results. -/
structure UninstallState where
  skillsDir : Option Target
  commandsDir : Option (List String)
  cacheExists : Bool
  backupsExists : Bool
  removedSkills : Option Nat
  removedLegacy : Option Nat
  trace : List (String × RemoveResult)
deriving Repr, DecidableEq

/-- The `installed_skills` count of uninstall.py lines 60-64: how many
names of the hardcoded list have an existing target subdirectory. -/
def installed_skills (inp : UninstallInput) : Nat :=
  match inp.skillsDir with
  | none => 0
  | some t => (skills.filter (fun s => (getDir t s).isSome)).length

/-- The `installed_legacy` count of uninstall.py lines 67-71. -/
def installed_legacy (inp : UninstallInput) : Nat :=
  match inp.commandsDir with
  | none => 0
  | some fs => (legacy_commands.filter (fun c => fs.contains c)).length

/-- uninstall.py `main` (lines 13-131), transcribed.  Oracles: `rmSkill`
for per-skill `shutil.rmtree`, `rmCmd` for per-command `os.remove`. -/
def uninstallMain (inp : UninstallInput)
    (rmSkill rmCmd : String → Bool) : MainOutcome UninstallState :=
  if installed_skills inp == 0 && installed_legacy inp == 0 then
    .exits 0 ⟨inp.skillsDir, inp.commandsDir, inp.cacheExists,
      inp.backupsExists, none, none, []⟩
  else if inp.interruptAtPrompt then
    .interrupt ⟨inp.skillsDir, inp.commandsDir, inp.cacheExists,
      inp.backupsExists, none, none, []⟩
  else if !(lower inp.answer == "y") then
    .exits 0 ⟨inp.skillsDir, inp.commandsDir, inp.cacheExists,
      inp.backupsExists, none, none, []⟩
  else
    let skillsRes :=
      match inp.skillsDir with
      | none => (none, 0, [])
      | some t =>
        let r := removeSkillsLoop rmSkill skills t
        (some r.1, r.2.1, r.2.2)
    let cmdsRes :=
      match inp.commandsDir with
      | none => (none, 0)
      | some fs =>
        let r := removeCmdsLoop rmCmd legacy_commands fs
        (some r.1, r.2)
    if inp.cacheExists || inp.backupsExists then
      if inp.interruptAtPrompt2 then
        .interrupt ⟨skillsRes.1, cmdsRes.1, inp.cacheExists,
          inp.backupsExists, none, none, skillsRes.2.2⟩
      else if lower inp.answer2 == "y" then
        if inp.cacheExists && inp.cacheRmFails then
          .raises "rmtree cache_dir" ⟨skillsRes.1, cmdsRes.1, true,
            inp.backupsExists, none, none, skillsRes.2.2⟩
        else if inp.backupsExists && inp.backupRmFails then
          .raises "rmtree backup_dir" ⟨skillsRes.1, cmdsRes.1, false,
            true, none, none, skillsRes.2.2⟩
        else
          .exits 0 ⟨skillsRes.1, cmdsRes.1, false, false,
            some skillsRes.2.1, some cmdsRes.2, skillsRes.2.2⟩
      else
        .exits 0 ⟨skillsRes.1, cmdsRes.1, inp.cacheExists,
          inp.backupsExists, some skillsRes.2.1, some cmdsRes.2,
          skillsRes.2.2⟩
    else
      .exits 0 ⟨skillsRes.1, cmdsRes.1, inp.cacheExists,
        inp.backupsExists, some skillsRes.2.1, some cmdsRes.2,
        skillsRes.2.2⟩

/-- uninstall.py `__main__` block (lines 133-139): `KeyboardInterrupt` is
caught and the handler falls off the end (exit 0); `except Exception`
prints a diagnostic and also falls off the end, so the process still
exits 0 — no `sys.exit(1)` appears anywhere in this file. -/
def uninstallTop (m : MainOutcome UninstallState) : TopOutcome :=
  match m with
  | .exits c _ => .exit c
  | .raises _ _ => .exit 0
  | .interrupt _ => .exit 0

/-- Target state left by the install loop, whichever way it ended. -/
def loopState (r : Except (Target × String) (Target × Nat × List String)) : Target :=
  match r with
  | .error (t, _) => t
  | .ok (t, _, _) => t

/-- The state payload of a `MainOutcome`, whichever way `main` ended. -/
def mainState {σ : Type} (m : MainOutcome σ) : σ :=
  match m with
  | .exits _ s => s
  | .raises _ s => s
  | .interrupt s => s

/-- Whether a `main` run ended in an unhandled `Exception`. -/
def isRaises {σ : Type} (m : MainOutcome σ) : Bool :=
  match m with
  | .raises _ _ => true
  | _ => false

/-! ### Association-list lemmas -/

theorem lookupFile_append (d1 d2 : Dir) (n : String) :
    lookupFile (d1 ++ d2) n =
      match lookupFile d1 n with
      | some c => some c
      | none => lookupFile d2 n := by
  induction d1 with
  | nil => rfl
  | cons f fs ih =>
    by_cases h : f.1 = n <;> simp [lookupFile, h, ih]

theorem lookupFile_eq_none (d : Dir) (n : String)
    (h : ∀ g ∈ d, g.1 ≠ n) : lookupFile d n = none := by
  induction d with
  | nil => rfl
  | cons f fs ih =>
    have hf := h f (List.mem_cons_self f fs)
    simp only [lookupFile, if_neg hf]
    exact ih fun g hg => h g (List.mem_cons_of_mem f hg)

theorem lookupFile_map_other (d : Dir) (f : File) (n : String) (h : ¬ n = f.1) :
    lookupFile (d.map fun g => if g.1 = f.1 then f else g) n = lookupFile d n := by
  induction d with
  | nil => rfl
  | cons g gs ih =>
    by_cases hg : g.1 = f.1
    · have h1 : ¬ f.1 = n := fun he => h he.symm
      have h2 : ¬ g.1 = n := by rw [hg]; exact h1
      simp [lookupFile, hg, h1, h2, ih]
    · by_cases h3 : g.1 = n <;> simp [lookupFile, hg, h3, h, ih]

theorem lookupFile_map_hit (d : Dir) (f : File)
    (h : ∃ g ∈ d, g.1 = f.1) :
    lookupFile (d.map fun g => if g.1 = f.1 then f else g) f.1 = some f.2 := by
  induction d with
  | nil => obtain ⟨g, hg, _⟩ := h; exact absurd hg (List.not_mem_nil g)
  | cons g gs ih =>
    by_cases hg : g.1 = f.1
    · simp [lookupFile, hg]
    · obtain ⟨g0, hg0, he0⟩ := h
      rcases List.mem_cons.mp hg0 with h0 | h0
      · exact absurd (h0 ▸ he0) hg
      · simp [lookupFile, hg, ih ⟨g0, h0, he0⟩]

theorem lookupFile_setFile (d : Dir) (f : File) (n : String) :
    lookupFile (setFile d f) n = if n = f.1 then some f.2 else lookupFile d n := by
  unfold setFile
  by_cases hany : d.any (fun g => g.1 = f.1) = true
  · rw [if_pos hany]
    by_cases h : n = f.1
    · subst h
      rw [if_pos rfl]
      obtain ⟨g, hg, he⟩ := List.any_eq_true.mp hany
      exact lookupFile_map_hit d f ⟨g, hg, of_decide_eq_true he⟩
    · rw [if_neg h]
      exact lookupFile_map_other d f n h
  · rw [if_neg hany]
    have hall : ∀ g ∈ d, g.1 ≠ f.1 := by
      intro g hg he
      exact hany (List.any_eq_true.mpr ⟨g, hg, decide_eq_true he⟩)
    rw [lookupFile_append]
    by_cases h : n = f.1
    · subst h
      rw [lookupFile_eq_none d f.1 hall]
      simp [lookupFile]
    · have h4 : ¬ f.1 = n := fun he => h he.symm
      rw [if_neg h]
      cases hd : lookupFile d n <;> simp [lookupFile, h4]

theorem getDir_append (t1 t2 : Target) (n : String) :
    getDir (t1 ++ t2) n =
      match getDir t1 n with
      | some d => some d
      | none => getDir t2 n := by
  induction t1 with
  | nil => rfl
  | cons e es ih =>
    by_cases h : e.1 = n <;> simp [getDir, h, ih]

theorem getDir_eq_none (t : Target) (n : String)
    (h : ∀ e ∈ t, e.1 ≠ n) : getDir t n = none := by
  induction t with
  | nil => rfl
  | cons e es ih =>
    have he := h e (List.mem_cons_self e es)
    simp only [getDir, if_neg he]
    exact ih fun g hg => h g (List.mem_cons_of_mem e hg)

theorem getDir_map_other (t : Target) (n m : String) (d : Dir) (h : ¬ m = n) :
    getDir (t.map fun e => if e.1 = n then (n, d) else e) m = getDir t m := by
  induction t with
  | nil => rfl
  | cons e es ih =>
    by_cases hg : e.1 = n
    · have h1 : ¬ n = m := fun he => h he.symm
      have h2 : ¬ e.1 = m := by rw [hg]; exact h1
      simp [getDir, hg, h1, h2, ih]
    · by_cases h3 : e.1 = m <;> simp [getDir, hg, h3, h, ih]

theorem getDir_map_hit (t : Target) (n : String) (d : Dir)
    (h : ∃ e ∈ t, e.1 = n) :
    getDir (t.map fun e => if e.1 = n then (n, d) else e) n = some d := by
  induction t with
  | nil => obtain ⟨e, he, _⟩ := h; exact absurd he (List.not_mem_nil e)
  | cons e es ih =>
    by_cases hg : e.1 = n
    · simp [getDir, hg]
    · obtain ⟨e0, he0, hn0⟩ := h
      rcases List.mem_cons.mp he0 with h0 | h0
      · exact absurd (h0 ▸ hn0) hg
      · simp [getDir, hg, ih ⟨e0, h0, hn0⟩]

theorem getDir_setDirEntry (t : Target) (n m : String) (d : Dir) :
    getDir (setDirEntry t n d) m = if m = n then some d else getDir t m := by
  unfold setDirEntry
  by_cases hany : t.any (fun e => e.1 = n) = true
  · rw [if_pos hany]
    by_cases h : m = n
    · subst h
      rw [if_pos rfl]
      obtain ⟨e, he, hn⟩ := List.any_eq_true.mp hany
      exact getDir_map_hit t m d ⟨e, he, of_decide_eq_true hn⟩
    · rw [if_neg h]
      exact getDir_map_other t n m d h
  · rw [if_neg hany]
    have hall : ∀ e ∈ t, e.1 ≠ n := by
      intro e he hn
      exact hany (List.any_eq_true.mpr ⟨e, he, decide_eq_true hn⟩)
    rw [getDir_append]
    by_cases h : m = n
    · subst h
      rw [getDir_eq_none t m hall]
      simp [getDir]
    · have h4 : ¬ n = m := fun he => h he.symm
      rw [if_neg h]
      cases hd : getDir t m <;> simp [getDir, h4]

theorem getDir_removeDir (t : Target) (n m : String) :
    getDir (removeDir t n) m = if m = n then none else getDir t m := by
  induction t with
  | nil => simp [removeDir, getDir]
  | cons e es ih =>
    by_cases hn : e.1 = n
    · have : removeDir (e :: es) n = removeDir es n := by
        simp [removeDir, List.filter, hn]
      rw [this, ih]
      by_cases hm : m = n
      · simp [hm]
      · have h2 : ¬ e.1 = m := by rw [hn]; exact fun he => hm (he.symm)
        simp [hm, getDir, h2]
    · have : removeDir (e :: es) n = e :: removeDir es n := by
        simp [removeDir, List.filter, hn]
      rw [this]
      by_cases hm : e.1 = m
      · have h2 : ¬ m = n := by rw [← hm]; exact fun he => hn he
        simp [getDir, hm, h2]
      · simp [getDir, hm, ih]

/-! ### Copy-loop lemmas -/

theorem copyFiles_of_nofail (fails : String → String → Bool)
    (h : ∀ i f, fails i f = false) (iname : String) (files : List File) (d : Dir) :
    copyFiles fails iname files d = .ok (files.foldl setFile d) := by
  induction files generalizing d with
  | nil => rfl
  | cons f fs ih => simp [copyFiles, h, ih, List.foldl_cons]

theorem lookupFile_foldl_setFile (files : List File) (d : Dir) (n : String)
    (hnd : (files.map Prod.fst).Nodup) :
    lookupFile (files.foldl setFile d) n =
      match lookupFile files n with
      | some c => some c
      | none => lookupFile d n := by
  induction files generalizing d with
  | nil => simp [lookupFile]
  | cons f fs ih =>
    have hnd2 : (f.1 :: fs.map Prod.fst).Nodup := by simpa using hnd
    have hmem : f.1 ∉ fs.map Prod.fst := (List.nodup_cons.mp hnd2).1
    have htl : (fs.map Prod.fst).Nodup := (List.nodup_cons.mp hnd2).2
    rw [List.foldl_cons, ih (setFile d f) htl]
    by_cases h : n = f.1
    · subst h
      have hnone : lookupFile fs f.1 = none := by
        apply lookupFile_eq_none
        intro g hg he
        exact hmem (he ▸ List.mem_map_of_mem Prod.fst hg)
      simp [lookupFile, hnone, lookupFile_setFile]
    · have h4 : ¬ f.1 = n := fun he => h he.symm
      simp [lookupFile, h4, lookupFile_setFile, h]

/-! ### Install-loop lemmas -/

theorem installLoop_untouched (fails : String → String → Bool)
    (sds : List SourceDir) (t : Target) (name : String)
    (h : ∀ sd ∈ sds, sd.name = name → hasSkillFile sd = false) :
    getDir (loopState (installLoop fails sds t)) name = getDir t name := by
  induction sds generalizing t with
  | nil => rfl
  | cons sd rest ih =>
    have hrest : ∀ x ∈ rest, x.name = name → hasSkillFile x = false :=
      fun x hx => h x (List.mem_cons_of_mem sd hx)
    by_cases hk : hasSkillFile sd = true
    · have hne : ¬ name = sd.name := by
        intro he
        rw [h sd (List.mem_cons_self sd rest) he.symm] at hk
        exact Bool.false_ne_true hk
      cases hcf : copyFiles fails sd.name sd.files ((getDir t sd.name).getD []) with
      | error e =>
        obtain ⟨dp, msg⟩ := e
        simp only [installLoop, hk, if_true, hcf, loopState]
        rw [getDir_setDirEntry, if_neg hne, getDir_setDirEntry, if_neg hne]
      | ok dfull =>
        cases hrec : installLoop fails rest
            (setDirEntry (setDirEntry t sd.name ((getDir t sd.name).getD [])) sd.name dfull) with
        | error e =>
          obtain ⟨t2, msg⟩ := e
          have hih := ih (setDirEntry (setDirEntry t sd.name ((getDir t sd.name).getD [])) sd.name dfull) hrest
          rw [hrec] at hih
          simp only [loopState] at hih
          simp only [installLoop, hk, if_true, hcf, hrec, loopState]
          rw [hih, getDir_setDirEntry, if_neg hne, getDir_setDirEntry, if_neg hne]
        | ok r =>
          obtain ⟨t2, k, sk⟩ := r
          have hih := ih (setDirEntry (setDirEntry t sd.name ((getDir t sd.name).getD [])) sd.name dfull) hrest
          rw [hrec] at hih
          simp only [loopState] at hih
          simp only [installLoop, hk, if_true, hcf, hrec, loopState]
          rw [hih, getDir_setDirEntry, if_neg hne, getDir_setDirEntry, if_neg hne]
    · have hk2 : hasSkillFile sd = false := Bool.eq_false_iff.mpr hk
      cases hrec : installLoop fails rest t with
      | error e =>
        obtain ⟨t2, msg⟩ := e
        have hih := ih t hrest
        rw [hrec] at hih
        simp only [loopState] at hih
        simp only [installLoop, hk2, Bool.false_eq_true, if_false, hrec, loopState]
        exact hih
      | ok r =>
        obtain ⟨t2, k, sk⟩ := r
        have hih := ih t hrest
        rw [hrec] at hih
        simp only [loopState] at hih
        simp only [installLoop, hk2, Bool.false_eq_true, if_false, hrec, loopState]
        exact hih

theorem installLoop_skips (fails : String → String → Bool)
    (sds : List SourceDir) (t : Target) (sd : SourceDir)
    (hmem : sd ∈ sds) (hns : hasSkillFile sd = false) :
    ∀ t2 k sk, installLoop fails sds t = .ok (t2, k, sk) → sd.name ∈ sk := by
  induction sds generalizing t with
  | nil => exact absurd hmem (List.not_mem_nil sd)
  | cons x rest ih =>
    intro t2 k sk hok
    rcases List.mem_cons.mp hmem with he | hmem2
    · subst he
      cases hrec : installLoop fails rest t with
      | error e =>
        simp only [installLoop, hns, Bool.false_eq_true, if_false, hrec] at hok
        cases hok
      | ok r =>
        obtain ⟨t3, k3, sk3⟩ := r
        simp only [installLoop, hns, Bool.false_eq_true, if_false, hrec,
          Except.ok.injEq, Prod.mk.injEq] at hok
        rw [← hok.2.2]
        exact List.mem_cons_self sd.name sk3
    · by_cases hx : hasSkillFile x = true
      · cases hcf : copyFiles fails x.name x.files ((getDir t x.name).getD []) with
        | error e =>
          obtain ⟨dp, msg⟩ := e
          simp only [installLoop, hx, if_true, hcf] at hok
          cases hok
        | ok dfull =>
          cases hrec : installLoop fails rest
              (setDirEntry (setDirEntry t x.name ((getDir t x.name).getD [])) x.name dfull) with
          | error e =>
            simp only [installLoop, hx, if_true, hcf, hrec] at hok
            cases hok
          | ok r =>
            obtain ⟨t3, k3, sk3⟩ := r
            simp only [installLoop, hx, if_true, hcf, hrec,
              Except.ok.injEq, Prod.mk.injEq] at hok
            rw [← hok.2.2]
            exact ih _ hmem2 t3 k3 sk3 hrec
      · have hx2 : hasSkillFile x = false := Bool.eq_false_iff.mpr hx
        cases hrec : installLoop fails rest t with
        | error e =>
          simp only [installLoop, hx2, Bool.false_eq_true, if_false, hrec] at hok
          cases hok
        | ok r =>
          obtain ⟨t3, k3, sk3⟩ := r
          simp only [installLoop, hx2, Bool.false_eq_true, if_false, hrec,
            Except.ok.injEq, Prod.mk.injEq] at hok
          rw [← hok.2.2]
          exact List.mem_cons_of_mem x.name (ih t hmem2 t3 k3 sk3 hrec)

/-! ### Removal-loop lemmas -/

theorem removeSkillsLoop_trace (rm : String → Bool) (names : List String) (t : Target) :
    ((removeSkillsLoop rm names t).2.2).map Prod.fst = names := by
  induction names generalizing t with
  | nil => rfl
  | cons n ns ih => simp [removeSkillsLoop, ih]

theorem removeSkillsLoop_getDir (rm : String → Bool)
    (hnf : ∀ n, rm n = false) (names : List String) (t : Target) (m : String) :
    getDir (removeSkillsLoop rm names t).1 m =
      if m ∈ names then none else getDir t m := by
  induction names generalizing t with
  | nil => simp [removeSkillsLoop]
  | cons n ns ih =>
    simp only [removeSkillsLoop]
    cases hg : getDir t n with
    | none =>
      have hone : removeOne rm t n = (t, .Absent) := by simp [removeOne, hg]
      rw [hone]
      simp only
      rw [ih t]
      by_cases hm : m ∈ ns
      · simp [hm, List.mem_cons]
      · by_cases hmn : m = n
        · subst hmn
          simp [hm, hg, List.mem_cons]
        · simp [hm, hmn, List.mem_cons]
    | some d =>
      have hone : removeOne rm t n = (removeDir t n, .Removed) := by
        simp [removeOne, hg, hnf n]
      rw [hone]
      simp only
      rw [ih (removeDir t n)]
      by_cases hm : m ∈ ns
      · simp [hm, List.mem_cons]
      · by_cases hmn : m = n
        · subst hmn
          simp [hm, getDir_removeDir, List.mem_cons]
        · simp [hm, hmn, getDir_removeDir, List.mem_cons]

/-! ### Claim theorems -/

/-- C1 (amended): a copy error on any file of an item does not yield a
per-item Failed result — it raises an unhandled exception out of the
install loop, so the whole batch is aborted: `main` ends in `raises`
(no summary count is ever reported) and the top-level handler turns it
into exit code 1. -/
theorem install_copy_error_aborts_batch (inp : InstallInput)
    (fails : String → String → Bool) (t : Target) (msg : String)
    (hsrc : inp.sourceExists = true)
    (hne : inp.sourceDirs.isEmpty = false)
    (hpath : (existingSkills inp).isEmpty = true ∨
      (inp.interruptAtPrompt = false ∧ (lower inp.answer == "y") = true))
    (herr : installLoop fails inp.sourceDirs (inp.target.getD []) = .error (t, msg)) :
    installMain inp fails = .raises msg ⟨some t, none, []⟩ ∧
    installTop (installMain inp fails) = .exit 1 := by
  have h1 : installMain inp fails = .raises msg ⟨some t, none, []⟩ := by
    rcases hpath with hconf | ⟨hint, hans⟩
    · simp [installMain, hsrc, hne, hconf, herr]
    · simp [installMain, hsrc, hne, hint, hans, herr]
  exact ⟨h1, by rw [h1]; rfl⟩

/-- C1 witness: a concrete two-item batch whose first copy fails. -/
theorem install_copy_error_aborts_batch_witness :
    installMain
      ⟨true, [⟨"w1", [("SKILL.md", "A")]⟩, ⟨"w2", [("SKILL.md", "B")]⟩],
        some [], "", false⟩
      (fun i _ => i == "w1")
      = .raises "copy2 SKILL.md" ⟨some [("w1", [])], none, []⟩ ∧
    installTop (installMain
      ⟨true, [⟨"w1", [("SKILL.md", "A")]⟩, ⟨"w2", [("SKILL.md", "B")]⟩],
        some [], "", false⟩
      (fun i _ => i == "w1")) = .exit 1 :=
  install_copy_error_aborts_batch _ _ _ _ rfl rfl (Or.inl rfl) rfl

/-- C1 counterexample: with two eligible items a and b and a copy error
on a, the run raises and exits 1, b is never installed, and no summary
counts are produced — the claim's "every subsequent item is still
processed and installed" and "one failure and N-1 successes" both fail. -/
theorem install_batch_abort_counterexample :
    installMain
      ⟨true, [⟨"a", [("SKILL.md", "A")]⟩, ⟨"b", [("SKILL.md", "B")]⟩],
        some [], "", false⟩
      (fun i _ => i == "a")
      = .raises "copy2 SKILL.md" ⟨some [("a", [])], none, []⟩ ∧
    getDir [("a", [])] "b" = none ∧
    installTop (installMain
      ⟨true, [⟨"a", [("SKILL.md", "A")]⟩, ⟨"b", [("SKILL.md", "B")]⟩],
        some [], "", false⟩
      (fun i _ => i == "a")) = .exit 1 := by
  decide

/-- C2: when conflicts exist and the user declines the overwrite prompt,
`main` reaches `sys.exit(0)` with the skills target exactly as it was —
the decline path performs no writes (the mkdir of line 36 is a no-op
because a conflicting target necessarily already exists). -/
theorem decline_leaves_target_unchanged (inp : InstallInput)
    (fails : String → String → Bool)
    (hsrc : inp.sourceExists = true)
    (hne : inp.sourceDirs.isEmpty = false)
    (hconf : (existingSkills inp).isEmpty = false)
    (hint : inp.interruptAtPrompt = false)
    (hans : (lower inp.answer == "y") = false) :
    installMain inp fails = .exits 0 ⟨inp.target, none, []⟩ ∧
    installTop (installMain inp fails) = .exit 0 := by
  have htgt : inp.target = some (inp.target.getD []) := by
    cases ht : inp.target with
    | none =>
      exfalso
      have hempty : existingSkills inp = [] := by
        unfold existingSkills
        rw [ht]
        simp [getDir]
      rw [hempty] at hconf
      simp at hconf
    | some t0 => rfl
  have h1 : installMain inp fails = .exits 0 ⟨some (inp.target.getD []), none, []⟩ := by
    simp [installMain, hsrc, hne, hconf, hint, hans]
  rw [← htgt] at h1
  exact ⟨h1, by rw [h1]; rfl⟩

/-- C2 witness: declining with one conflicting item leaves the target
untouched and exits 0. -/
theorem decline_leaves_target_unchanged_witness :
    installMain
      ⟨true, [⟨"a", [("SKILL.md", "A")]⟩], some [("a", [("SKILL.md", "O")])],
        "n", false⟩ (fun _ _ => false)
      = .exits 0 ⟨some [("a", [("SKILL.md", "O")])], none, []⟩ ∧
    installTop (installMain
      ⟨true, [⟨"a", [("SKILL.md", "A")]⟩], some [("a", [("SKILL.md", "O")])],
        "n", false⟩ (fun _ _ => false)) = .exit 0 :=
  decline_leaves_target_unchanged _ _ rfl rfl rfl rfl (by decide)

/-- C3: the uninstaller violates the exit-code contract — when `main`
raises an unhandled exception (here: `shutil.rmtree` on the cache
directory, which line 123 runs without a try block), the `except
Exception` handler of lines 138-139 prints the diagnostic but never
calls `sys.exit(1)`, so the process exits 0. -/
theorem uninstall_unhandled_failure_exits_zero :
    isRaises (uninstallMain
      ⟨some [("commit", [("SKILL.md", "x")])], none, "y", "y",
        false, false, true, false, true, false⟩
      (fun _ => false) (fun _ => false)) = true ∧
    uninstallTop (uninstallMain
      ⟨some [("commit", [("SKILL.md", "x")])], none, "y", "y",
        false, false, true, false, true, false⟩
      (fun _ => false) (fun _ => false)) = .exit 0 := by
  decide

/-- C4 (amended): only the uninstaller converts an interrupt during its
confirmation prompt into a clean cancellation (exit 0, state unchanged);
the installer catches only `Exception`, so a KeyboardInterrupt at its
overwrite prompt escapes the `__main__` handler uncaught. -/
theorem interrupt_conversion_only_in_uninstaller
    (uinp : UninstallInput) (rmSkill rmCmd : String → Bool)
    (iinp : InstallInput) (fails : String → String → Bool)
    (hu : (installed_skills uinp == 0 && installed_legacy uinp == 0) = false)
    (hui : uinp.interruptAtPrompt = true)
    (hi1 : iinp.sourceExists = true)
    (hi2 : iinp.sourceDirs.isEmpty = false)
    (hi3 : (existingSkills iinp).isEmpty = false)
    (hi4 : iinp.interruptAtPrompt = true) :
    uninstallMain uinp rmSkill rmCmd =
      .interrupt ⟨uinp.skillsDir, uinp.commandsDir, uinp.cacheExists,
        uinp.backupsExists, none, none, []⟩ ∧
    uninstallTop (uninstallMain uinp rmSkill rmCmd) = .exit 0 ∧
    installMain iinp fails = .interrupt ⟨some (iinp.target.getD []), none, []⟩ ∧
    installTop (installMain iinp fails) = .uncaughtInterrupt := by
  have h1 : uninstallMain uinp rmSkill rmCmd =
      .interrupt ⟨uinp.skillsDir, uinp.commandsDir, uinp.cacheExists,
        uinp.backupsExists, none, none, []⟩ := by
    simp [uninstallMain, hu, hui]
  have h2 : installMain iinp fails =
      .interrupt ⟨some (iinp.target.getD []), none, []⟩ := by
    simp [installMain, hi1, hi2, hi3, hi4]
  exact ⟨h1, by rw [h1]; rfl, h2, by rw [h2]; rfl⟩

/-- C4 witness: concrete interrupted runs of both entry points. -/
theorem interrupt_conversion_only_in_uninstaller_witness :
    uninstallMain
      ⟨some [("commit", [("SKILL.md", "x")])], none, "", "",
        true, false, false, false, false, false⟩
      (fun _ => false) (fun _ => false)
      = .interrupt ⟨some [("commit", [("SKILL.md", "x")])], none,
          false, false, none, none, []⟩ ∧
    uninstallTop (uninstallMain
      ⟨some [("commit", [("SKILL.md", "x")])], none, "", "",
        true, false, false, false, false, false⟩
      (fun _ => false) (fun _ => false)) = .exit 0 ∧
    installMain ⟨true, [⟨"a", [("SKILL.md", "A")]⟩], some [("a", [])], "", true⟩
      (fun _ _ => false)
      = .interrupt ⟨some [("a", [])], none, []⟩ ∧
    installTop (installMain
      ⟨true, [⟨"a", [("SKILL.md", "A")]⟩], some [("a", [])], "", true⟩
      (fun _ _ => false)) = .uncaughtInterrupt :=
  interrupt_conversion_only_in_uninstaller _ _ _ _ _
    (by decide) rfl rfl rfl rfl rfl

/-- C4 counterexample: an interrupt at the installer's overwrite prompt
reaches the shell as a raw uncaught KeyboardInterrupt, not a clean
cancellation message — the claim fails for the installer entry point. -/
theorem install_interrupt_uncaught_counterexample :
    installTop (installMain
      ⟨true, [⟨"b", [("SKILL.md", "B")]⟩], some [("b", [("SKILL.md", "B")])],
        "", true⟩
      (fun _ _ => false)) = .uncaughtInterrupt := by
  decide

/-- C5 (amended): a confirmed uninstall removes exactly those target item
directories whose names are in the hardcoded 30-name list — every listed
name is absent afterwards, and every other name (in particular any
installed item the list does not mention) keeps exactly its previous
directory. -/
theorem uninstall_removes_exactly_hardcoded (uinp : UninstallInput)
    (rmSkill rmCmd : String → Bool) (t : Target)
    (hsk : uinp.skillsDir = some t)
    (hcmd : uinp.commandsDir = none)
    (hnf : ∀ n, rmSkill n = false)
    (hreach : (installed_skills uinp == 0 && installed_legacy uinp == 0) = false)
    (hint : uinp.interruptAtPrompt = false)
    (hans : (lower uinp.answer == "y") = true)
    (hcache : uinp.cacheExists = false)
    (hback : uinp.backupsExists = false) :
    uninstallMain uinp rmSkill rmCmd =
      .exits 0 ⟨some (removeSkillsLoop rmSkill skills t).1, none, false, false,
        some (removeSkillsLoop rmSkill skills t).2.1, some 0,
        (removeSkillsLoop rmSkill skills t).2.2⟩ ∧
    (∀ m, getDir (removeSkillsLoop rmSkill skills t).1 m =
      if m ∈ skills then none else getDir t m) := by
  constructor
  · simp [uninstallMain, hreach, hint, hans, hsk, hcmd, hcache, hback]
  · intro m
    exact removeSkillsLoop_getDir rmSkill hnf skills t m

/-- C5 witness: a listed name is removed while an unlisted name keeps its
directory. -/
theorem uninstall_removes_exactly_hardcoded_witness :
    getDir (removeSkillsLoop (fun _ => false) skills
      [("commit", [("SKILL.md", "x")]), ("keep-me", [("SKILL.md", "k")])]).1
      "commit" = none ∧
    getDir (removeSkillsLoop (fun _ => false) skills
      [("commit", [("SKILL.md", "x")]), ("keep-me", [("SKILL.md", "k")])]).1
      "keep-me"
      = getDir [("commit", [("SKILL.md", "x")]), ("keep-me", [("SKILL.md", "k")])]
          "keep-me" := by
  have h := uninstall_removes_exactly_hardcoded
    ⟨some [("commit", [("SKILL.md", "x")]), ("keep-me", [("SKILL.md", "k")])],
      none, "y", "", false, false, false, false, false, false⟩
    (fun _ => false) (fun _ => false)
    [("commit", [("SKILL.md", "x")]), ("keep-me", [("SKILL.md", "k")])]
    rfl rfl (fun _ => rfl) (by decide) rfl (by decide) rfl rfl
  constructor
  · have h2 := h.2 "commit"
    rwa [if_pos (by decide)] at h2
  · have h2 := h.2 "keep-me"
    rwa [if_neg (by decide)] at h2

/-- C5 counterexample: an installed item named tdd-red-green — a name the
installer's own usage text advertises — survives a subsequent uninstall
untouched, because it is not in the hardcoded list: the uninstaller does
not even reach its removal loop and exits reporting nothing found. -/
theorem uninstall_leaves_unlisted_item_counterexample :
    installMain ⟨true, [⟨"tdd-red-green", [("SKILL.md", "x")]⟩], some [], "", false⟩
      (fun _ _ => false)
      = .exits 0 ⟨some [("tdd-red-green", [("SKILL.md", "x")])], some 1, []⟩ ∧
    uninstallMain
      ⟨some [("tdd-red-green", [("SKILL.md", "x")])], none, "y", "",
        false, false, false, false, false, false⟩
      (fun _ => false) (fun _ => false)
      = .exits 0 ⟨some [("tdd-red-green", [("SKILL.md", "x")])], none,
          false, false, none, none, []⟩ ∧
    getDir [("tdd-red-green", [("SKILL.md", "x")])] "tdd-red-green"
      = some [("SKILL.md", "x")] := by
  decide

/-- C6 (amended): a reinstall with confirmation accepted copies every
source file into the existing target item directory, overwriting files
of the same name, but deletes nothing: the resulting directory is the
previous one overlaid with the source files, so a file present before
the reinstall but absent from the source survives. -/
theorem reinstall_overlays_target_dir (fails : String → String → Bool)
    (sd : SourceDir) (t : Target) (d0 : Dir) (n : String)
    (hnf : ∀ i f, fails i f = false)
    (hsk : hasSkillFile sd = true)
    (hd0 : getDir t sd.name = some d0)
    (hnd : (sd.files.map Prod.fst).Nodup) :
    installLoop fails [sd] t =
      .ok (setDirEntry (setDirEntry t sd.name d0) sd.name
        (sd.files.foldl setFile d0), 1, []) ∧
    getDir (setDirEntry (setDirEntry t sd.name d0) sd.name
      (sd.files.foldl setFile d0)) sd.name = some (sd.files.foldl setFile d0) ∧
    lookupFile (sd.files.foldl setFile d0) n =
      (match lookupFile sd.files n with
       | some c => some c
       | none => lookupFile d0 n) := by
  refine ⟨?_, ?_, ?_⟩
  · simp [installLoop, hsk, hd0, copyFiles_of_nofail fails hnf]
  · rw [getDir_setDirEntry, if_pos rfl]
  · exact lookupFile_foldl_setFile sd.files d0 n hnd

/-- C6 witness: overlaying one source file onto a two-file directory
keeps the file the source does not mention. -/
theorem reinstall_overlays_target_dir_witness :
    lookupFile (List.foldl setFile
      [("SKILL.md", "old"), ("stale.txt", "S")] [("SKILL.md", "new")])
      "stale.txt" = some "S" :=
  ((reinstall_overlays_target_dir (fun _ _ => false)
    ⟨"a", [("SKILL.md", "new")]⟩
    [("a", [("SKILL.md", "old"), ("stale.txt", "S")])]
    [("SKILL.md", "old"), ("stale.txt", "S")] "stale.txt"
    (fun _ _ => rfl) rfl rfl (by decide)).2.2).trans rfl

/-- C6 counterexample: reinstalling item a whose source now holds only
SKILL.md over a target that also holds stale.txt leaves stale.txt in
place — the target item directory does not contain exactly the files of
the source item. -/
theorem reinstall_stale_file_counterexample :
    installMain
      ⟨true, [⟨"a", [("SKILL.md", "new")]⟩],
        some [("a", [("SKILL.md", "old"), ("stale.txt", "S")])], "y", false⟩
      (fun _ _ => false)
      = .exits 0 ⟨some [("a", [("SKILL.md", "new"), ("stale.txt", "S")])],
          some 1, []⟩ ∧
    lookupFile [("SKILL.md", "new"), ("stale.txt", "S")] "stale.txt" = some "S" ∧
    lookupFile [("SKILL.md", "new")] "stale.txt" = none := by
  decide

/-- C7: an item whose source directory lacks SKILL.md is skipped — it is
reported in the skipped list whenever the install loop completes, and no
directory of its name is ever created in the target, whichever way the
run ends. -/
theorem incomplete_item_never_installed (inp : InstallInput)
    (fails : String → String → Bool) (name : String)
    (hinit : getDir (inp.target.getD []) name = none)
    (hinc : ∀ sd ∈ inp.sourceDirs, sd.name = name → hasSkillFile sd = false) :
    getDir ((mainState (installMain inp fails)).target.getD []) name = none ∧
    (∀ sd ∈ inp.sourceDirs, sd.name = name →
      ∀ t2 k sk, installLoop fails inp.sourceDirs (inp.target.getD []) = .ok (t2, k, sk) →
        name ∈ sk) := by
  have huntouched := installLoop_untouched fails inp.sourceDirs (inp.target.getD []) name hinc
  constructor
  · cases hloop : installLoop fails inp.sourceDirs (inp.target.getD []) with
    | error e =>
      obtain ⟨t2, msg⟩ := e
      rw [hloop] at huntouched
      simp only [loopState] at huntouched
      simp only [installMain, hloop]
      split
      · exact hinit
      · split
        · exact hinit
        · split
          · exact hinit
          · split
            · exact hinit
            · exact huntouched.trans hinit
    | ok r =>
      obtain ⟨t2, k, sk⟩ := r
      rw [hloop] at huntouched
      simp only [loopState] at huntouched
      simp only [installMain, hloop]
      split
      · exact hinit
      · split
        · exact hinit
        · split
          · exact hinit
          · split
            · exact hinit
            · exact huntouched.trans hinit
  · intro sd hmem hname t2 k sk hok
    have hmem2 := installLoop_skips fails inp.sourceDirs (inp.target.getD [])
      sd hmem (hinc sd hmem hname) t2 k sk hok
    rwa [hname] at hmem2

/-- C7 witness: item c without SKILL.md never appears in the target. -/
theorem incomplete_item_never_installed_witness :
    getDir ((mainState (installMain
      ⟨true, [⟨"a", [("SKILL.md", "A")]⟩, ⟨"c", [("notes.txt", "N")]⟩],
        some [], "", false⟩
      (fun _ _ => false))).target.getD []) "c" = none :=
  (incomplete_item_never_installed
    ⟨true, [⟨"a", [("SKILL.md", "A")]⟩, ⟨"c", [("notes.txt", "N")]⟩],
      some [], "", false⟩
    (fun _ _ => false) "c" rfl (by decide)).1

/-- C8: the removal batch processes every name regardless of failures
(the trace lists exactly the input names in order), and for each single
name: an absent directory yields Absent with no change, a present one is
recursively deleted and reported Removed, and a raising rmtree is caught
in place and reported Failed with the directory left as it was. -/
theorem remove_batch_loop_semantics (rm : String → Bool)
    (names : List String) (t : Target) :
    ((removeSkillsLoop rm names t).2.2).map Prod.fst = names ∧
    (∀ n, getDir t n = none → removeOne rm t n = (t, .Absent)) ∧
    (∀ n d, getDir t n = some d → rm n = false →
      removeOne rm t n = (removeDir t n, .Removed) ∧
      getDir (removeDir t n) n = none) ∧
    (∀ n d, getDir t n = some d → rm n = true →
      removeOne rm t n = (t, .Failed ("rmtree " ++ n))) := by
  refine ⟨removeSkillsLoop_trace rm names t, ?_, ?_, ?_⟩
  · intro n hg
    simp [removeOne, hg]
  · intro n d hg hrm
    refine ⟨by simp [removeOne, hg, hrm], ?_⟩
    rw [getDir_removeDir]
    simp
  · intro n d hg hrm
    simp [removeOne, hg, hrm]

/-- C8 witness: the three removal outcomes at concrete inputs, and the
trace covering a batch that contains a failing name. -/
theorem remove_batch_loop_semantics_witness :
    ((removeSkillsLoop (fun n => n == "commit") ["commit", "docs"]
      [("commit", [("SKILL.md", "x")]), ("docs", [("SKILL.md", "d")])]).2.2).map
        Prod.fst = ["commit", "docs"] ∧
    removeOne (fun _ => false) [("commit", [("SKILL.md", "x")])] "docs"
      = ([("commit", [("SKILL.md", "x")])], .Absent) ∧
    removeOne (fun _ => false) [("commit", [("SKILL.md", "x")])] "commit"
      = (removeDir [("commit", [("SKILL.md", "x")])] "commit", .Removed) ∧
    removeOne (fun _ => true) [("commit", [("SKILL.md", "x")])] "commit"
      = ([("commit", [("SKILL.md", "x")])], .Failed ("rmtree " ++ "commit")) := by
  refine ⟨?_, ?_, ?_, ?_⟩
  · exact (remove_batch_loop_semantics (fun n => n == "commit") ["commit", "docs"]
      [("commit", [("SKILL.md", "x")]), ("docs", [("SKILL.md", "d")])]).1
  · exact (remove_batch_loop_semantics (fun _ => false) []
      [("commit", [("SKILL.md", "x")])]).2.1 "docs" rfl
  · exact ((remove_batch_loop_semantics (fun _ => false) []
      [("commit", [("SKILL.md", "x")])]).2.2.1 "commit" [("SKILL.md", "x")] rfl rfl).1
  · exact (remove_batch_loop_semantics (fun _ => true) []
      [("commit", [("SKILL.md", "x")])]).2.2.2 "commit" [("SKILL.md", "x")] rfl rfl

/-- C9: on the spec's example collection with an empty target, a and b
are installed (b with both files), c is skipped as incomplete, and the
summary reports the count 2. -/
theorem example_collection_install :
    installMain
      ⟨true, [⟨"a", [("SKILL.md", "A")]⟩,
        ⟨"b", [("SKILL.md", "B"), ("extra.txt", "E")]⟩, ⟨"c", []⟩],
        some [], "", false⟩
      (fun _ _ => false)
      = .exits 0 ⟨some [("a", [("SKILL.md", "A")]),
          ("b", [("SKILL.md", "B"), ("extra.txt", "E")])], some 2, ["c"]⟩ := by
  decide

/-- C10: a source root that exists but contains no immediate
subdirectories is a fatal error — `main` hits `sys.exit(1)` at line 33
without touching the target, not a successful empty no-op. -/
theorem empty_source_collection_fatal (inp : InstallInput)
    (fails : String → String → Bool)
    (hsrc : inp.sourceExists = true)
    (hempty : inp.sourceDirs = []) :
    installMain inp fails = .exits 1 ⟨inp.target, none, []⟩ ∧
    installTop (installMain inp fails) = .exit 1 := by
  have h1 : installMain inp fails = .exits 1 ⟨inp.target, none, []⟩ := by
    simp [installMain, hsrc, hempty]
  exact ⟨h1, by rw [h1]; rfl⟩

/-- C10 witness: the empty collection at a concrete input exits 1. -/
theorem empty_source_collection_fatal_witness :
    installMain ⟨true, [], some [], "", false⟩ (fun _ _ => false)
      = .exits 1 ⟨some [], none, []⟩ ∧
    installTop (installMain ⟨true, [], some [], "", false⟩ (fun _ _ => false))
      = .exit 1 :=
  empty_source_collection_fatal _ _ rfl rfl
